import Mathlib

/-!
Shallow embedding of rockerCam.py (USB-Camera-Tool) and proofs about it.

The source is a single Python file with four functions:
  get_args      - CLI parsing, zero-duration/zero-interval check, overwrite prompt
  main          - logger setup (debug only), device discovery, directory creation,
                  an unconditional logger.debug call, capture orchestration, timelapse
  captureLoop   - the per-camera tick loop writing capture_<n>.png files
  img2video     - per-camera timelapse assembly (chdir, scan .png, sort by mtime, encode)

Machine integers are modelled as Int; Python int(a/b) (true division then int())
truncates the exact quotient toward zero, which is Int.tdiv.  The filesystem state a
worker touches is the set of capture numbers present in its directory, modelled as a
list of naturals.  The while loop is given fuel-indexed small-step semantics so that
both terminating and non-terminating configurations can be analysed.
-/

namespace RockerCam

/-! ## captureLoop (rockerCam.py lines 144-178) -/

/-- Python "images = int(duration/interval)": exact quotient truncated toward zero. -/
def pyImages (duration interval : ℤ) : ℤ := Int.tdiv duration interval

/-- Python "pic_time = [x * interval for x in list(range(images + 1))]".
Python range of a non-positive bound is empty, hence the toNat. -/
def picTime (duration interval : ℤ) : List ℤ :=
  (List.range (pyImages duration interval + 1).toNat).map
    (fun (x : ℕ) => (x : ℤ) * interval)

/-- The mutable locals of the while loop: count (tick counter), img_num, and the
capture numbers written so far (the files present in the camera directory). -/
structure LoopState where
  count : ℕ
  imgNum : ℕ
  files : List ℕ
  deriving DecidableEq

/-- Initial state: count = 0, img_num = 0, no files written. -/
def initState : LoopState := ⟨0, 0, []⟩

/-- The while-loop guard "img_num <= images". -/
def capGuard (images : ℤ) (s : LoopState) : Bool := decide ((s.imgNum : ℤ) ≤ images)

/-- One iteration of the loop body: if count == pic_time[img_num] the frame is
written as capture_<img_num>.png and img_num advances; in every iteration the loop
then sleeps one second and increments count. -/
def capStep (pt : List ℤ) (s : LoopState) : LoopState :=
  if (s.count : ℤ) = pt.getD s.imgNum 0 then
    ⟨s.count + 1, s.imgNum + 1, s.imgNum :: s.files⟩
  else
    ⟨s.count + 1, s.imgNum, s.files⟩

/-- Fuel-indexed run of the while loop: perform at most n iterations, stopping
early if the guard fails. -/
def capRun (images : ℤ) (pt : List ℤ) : ℕ → LoopState → LoopState
  | 0, s => s
  | n + 1, s => if capGuard images s then capRun images pt n (capStep pt s) else s

/-- The loop state of captureLoop duration interval after n iterations. -/
def captureState (duration interval : ℤ) (n : ℕ) : LoopState :=
  capRun (pyImages duration interval) (picTime duration interval)
    n initState

/-- Observable result of a completed captureLoop run with the given fuel:
none while the loop has not finished (or when the final os.remove of
capture_0.png would raise FileNotFoundError); otherwise the capture numbers
still present after capture_0.png is deleted. -/
def captureLoopResult (duration interval : ℤ) (fuel : ℕ) : Option (List ℕ) :=
  let s := captureState duration interval fuel
  if capGuard (pyImages duration interval) s then none
  else if 0 ∈ s.files then some (s.files.erase 0) else none

/-! ### Generic lemmas about the fuel-indexed loop -/

theorem capRun_stuck (images : ℤ) (pt : List ℤ) (n : ℕ) (s : LoopState)
    (h : capGuard images s = false) : capRun images pt n s = s := by
  induction n with
  | zero => rfl
  | succ k ih => simp [capRun, h]

theorem capRun_add (images : ℤ) (pt : List ℤ) (a b : ℕ) (s : LoopState) :
    capRun images pt (a + b) s = capRun images pt b (capRun images pt a s) := by
  induction a generalizing s with
  | zero => simp [capRun]
  | succ k ih =>
    have hrw : k + 1 + b = (k + b) + 1 := by omega
    rw [hrw]
    by_cases hg : capGuard images s
    · simp only [capRun, hg, if_true]
      exact ih (capStep pt s)
    · simp only [Bool.not_eq_true] at hg
      rw [capRun_stuck images pt (k + b + 1) s hg,
        capRun_stuck images pt (k + 1) s hg,
        capRun_stuck images pt b s hg]

theorem capRun_succ (images : ℤ) (pt : List ℤ) (n : ℕ) (s : LoopState) :
    capRun images pt (n + 1) s =
      (if capGuard images (capRun images pt n s)
        then capStep pt (capRun images pt n s)
        else capRun images pt n s) := by
  rw [capRun_add images pt n 1 s]
  by_cases hg : capGuard images (capRun images pt n s)
  · simp [capRun, hg]
  · simp only [Bool.not_eq_true] at hg
    simp [capRun, hg]

/-! ### Arithmetic facts about pyImages -/

theorem pyImages_nonneg {D I : ℤ} (hD : 0 ≤ D) (hI : 0 ≤ I) : 0 ≤ pyImages D I :=
  Int.tdiv_nonneg hD hI

theorem pyImages_eq_ediv {D I : ℤ} (hD : 0 ≤ D) (hI : 0 ≤ I) : pyImages D I = D / I :=
  Int.tdiv_eq_ediv hD hI

theorem pyImages_one_le {D I : ℤ} (hI : 0 < I) (hID : I ≤ D) : 1 ≤ pyImages D I := by
  rw [pyImages_eq_ediv (le_trans (le_of_lt hI) hID) (le_of_lt hI)]
  exact (Int.le_ediv_iff_mul_le hI).mpr (by linarith)

/-- Floor characterisation of pyImages for a positive interval. -/
theorem pyImages_floor {D I : ℤ} (hI : 0 < I) (hD : 0 ≤ D) :
    pyImages D I * I ≤ D ∧ D < (pyImages D I + 1) * I := by
  rw [pyImages_eq_ediv hD (le_of_lt hI)]
  have hmod := Int.ediv_add_emod D I
  have h0 : 0 ≤ D % I := Int.emod_nonneg D (by omega)
  have h1 : D % I < I := Int.emod_lt_of_pos D hI
  constructor <;> nlinarith [Int.ediv_add_emod D I]

/-! ### picTime facts -/

theorem picTime_length {D I : ℤ} (h : 0 ≤ pyImages D I) :
    (picTime D I).length = (pyImages D I).toNat + 1 := by
  unfold picTime
  rw [List.length_map, List.length_range]
  omega

theorem picTime_getD {D I : ℤ} (h : 0 ≤ pyImages D I) {j : ℕ}
    (hj : j ≤ (pyImages D I).toNat) : (picTime D I).getD j 0 = (j : ℤ) * I := by
  have hlen : j < (picTime D I).length := by rw [picTime_length h]; omega
  rw [List.getD_eq_getElem _ _ hlen]
  simp only [picTime, List.getElem_map, List.getElem_range]

/-! ### Behaviour of the loop for a positive interval

In this section m abbreviates the truncated image count as a natural number and
i the interval as a natural number. -/

/-- No write happens strictly between scheduled points: running n ticks from a
count that stays at or below the next scheduled tick j * i only increments
count. -/
theorem capRun_idle {D I : ℤ} (h0 : 0 ≤ pyImages D I) (hI : 0 < I)
    (n : ℕ) {c j : ℕ} (fs : List ℕ)
    (hj : j ≤ (pyImages D I).toNat) (hc : c + n ≤ j * I.toNat) :
    capRun (pyImages D I) (picTime D I) n ⟨c, j, fs⟩ = ⟨c + n, j, fs⟩ := by
  induction n generalizing c with
  | zero => rfl
  | succ k ih =>
    have hguard : capGuard (pyImages D I) ⟨c, j, fs⟩ = true := by
      simp only [capGuard, decide_eq_true_eq]
      omega
    have hne : ((c : ℕ) : ℤ) ≠ (picTime D I).getD j 0 := by
      rw [picTime_getD h0 hj]
      have hIc : ((I.toNat : ℕ) : ℤ) = I := Int.toNat_of_nonneg (le_of_lt hI)
      have : c < j * I.toNat := by omega
      have : (c : ℤ) < (j : ℤ) * I := by
        calc (c : ℤ) < ((j * I.toNat : ℕ) : ℤ) := by exact_mod_cast this
        _ = (j : ℤ) * I := by push_cast [hIc]; ring
      omega
    simp only [capRun, hguard, if_true, capStep]
    rw [if_neg hne, ih (by omega)]
    simp only [LoopState.mk.injEq, and_true]
    omega

/-- A write step: at count j * i with j still scheduled, the frame j is written
and img_num advances. -/
theorem capRun_write {D I : ℤ} (h0 : 0 ≤ pyImages D I) (hI : 0 < I)
    {j : ℕ} (fs : List ℕ) (hj : j ≤ (pyImages D I).toNat) :
    capRun (pyImages D I) (picTime D I) 1 ⟨j * I.toNat, j, fs⟩ =
      ⟨j * I.toNat + 1, j + 1, j :: fs⟩ := by
  have hguard : capGuard (pyImages D I) ⟨j * I.toNat, j, fs⟩ = true := by
    simp only [capGuard, decide_eq_true_eq]
    omega
  have heq : ((j * I.toNat : ℕ) : ℤ) = (picTime D I).getD j 0 := by
    rw [picTime_getD h0 hj]
    have hIc : ((I.toNat : ℕ) : ℤ) = I := Int.toNat_of_nonneg (le_of_lt hI)
    push_cast [hIc]
    ring
  simp [capRun, hguard, capStep, heq]

/-- State at each scheduled tick j * i: count has reached j * i, j frames are on
disk, the next write is frame j. -/
theorem captureState_at_sched {D I : ℤ} (h0 : 0 ≤ pyImages D I) (hI : 0 < I)
    {j : ℕ} (hj : j ≤ (pyImages D I).toNat) :
    captureState D I (j * I.toNat) = ⟨j * I.toNat, j, (List.range j).reverse⟩ := by
  induction j with
  | zero => simp [captureState, capRun, initState]
  | succ k ih =>
    have hk : k ≤ (pyImages D I).toNat := by omega
    have hi1 : 1 ≤ I.toNat := by omega
    have hmul : (k + 1) * I.toNat = k * I.toNat + I.toNat := Nat.succ_mul k I.toNat
    have hsplit : (k + 1) * I.toNat = k * I.toNat + 1 + (I.toNat - 1) := by omega
    unfold captureState
    rw [hsplit, capRun_add, capRun_add]
    have h1 := ih hk
    unfold captureState at h1
    rw [h1, capRun_write h0 hI _ hk,
      capRun_idle h0 hI (I.toNat - 1) _ (by omega) (by omega)]
    have hcount : k * I.toNat + 1 + (I.toNat - 1) = (k + 1) * I.toNat := by omega
    have hfiles : (List.range (k + 1)).reverse = k :: (List.range k).reverse := by
      rw [List.range_succ, List.reverse_append]
      rfl
    rw [hcount, hfiles]

/-- State one tick past a scheduled point: the frame is on disk. -/
theorem captureState_past_sched {D I : ℤ} (h0 : 0 ≤ pyImages D I) (hI : 0 < I)
    {j : ℕ} (hj : j ≤ (pyImages D I).toNat) :
    captureState D I (j * I.toNat + 1) =
      ⟨j * I.toNat + 1, j + 1, (List.range (j + 1)).reverse⟩ := by
  unfold captureState
  rw [capRun_add]
  have h1 := captureState_at_sched h0 hI hj
  unfold captureState at h1
  rw [h1, capRun_write h0 hI _ hj]
  have hfiles : (List.range (j + 1)).reverse = j :: (List.range j).reverse := by
    rw [List.range_succ, List.reverse_append]
    rfl
  rw [hfiles]

/-- Once the final frame is written the guard fails and every larger fuel gives
the same final state. -/
theorem captureState_final {D I : ℤ} (h0 : 0 ≤ pyImages D I) (hI : 0 < I)
    {fuel : ℕ} (hfuel : (pyImages D I).toNat * I.toNat + 1 ≤ fuel) :
    captureState D I fuel =
      ⟨(pyImages D I).toNat * I.toNat + 1, (pyImages D I).toNat + 1,
        (List.range ((pyImages D I).toNat + 1)).reverse⟩ := by
  set m := (pyImages D I).toNat with hm
  have hfin := captureState_past_sched h0 hI (le_refl m)
  have hguard : capGuard (pyImages D I)
      ⟨m * I.toNat + 1, m + 1, (List.range (m + 1)).reverse⟩ = false := by
    simp only [capGuard, decide_eq_false_iff_not, not_le]
    omega
  obtain ⟨k, hk⟩ : ∃ k, fuel = (m * I.toNat + 1) + k := ⟨fuel - (m * I.toNat + 1), by omega⟩
  unfold captureState
  rw [hk, capRun_add]
  unfold captureState at hfin
  rw [hfin, capRun_stuck _ _ _ _ hguard]

theorem range_succ_reverse_erase_zero (m : ℕ) :
    ((List.range (m + 1)).reverse).erase 0 = (List.range' 1 m).reverse := by
  have h1 : List.range (m + 1) = 0 :: List.range' 1 m := by
    rw [List.range_eq_range', List.range'_succ]
  have h0 : (0 : ℕ) ∉ (List.range' 1 m).reverse := by
    simp only [List.mem_reverse, List.mem_range']
    omega
  rw [h1, List.reverse_cons, List.erase_append_right _ h0]
  simp

/-- C1: for positive duration D and positive interval I with I less than or equal
to D, a completed run of captureLoop leaves exactly floor(D/I) capture files,
numbered 1 through floor(D/I), with capture_0.png absent.  The quantity
pyImages D I is floor(D/I), pinned down by the two inequalities at the end. -/
theorem captureLoop_completes_with_floor_files (D I : ℤ) (hI : 0 < I) (hID : I ≤ D) :
    ∃ l : List ℕ,
      (∀ fuel, (pyImages D I).toNat * I.toNat + 1 ≤ fuel →
        captureLoopResult D I fuel = some l) ∧
      l.length = (pyImages D I).toNat ∧
      l.Nodup ∧
      (∀ k, k ∈ l ↔ 1 ≤ k ∧ k ≤ (pyImages D I).toNat) ∧
      0 ∉ l ∧
      1 ≤ (pyImages D I).toNat ∧
      pyImages D I * I ≤ D ∧ D < (pyImages D I + 1) * I := by
  have hD : 0 ≤ D := le_trans (le_of_lt hI) hID
  have h0 : 0 ≤ pyImages D I := pyImages_nonneg hD (le_of_lt hI)
  have h1 : 1 ≤ pyImages D I := pyImages_one_le hI hID
  refine ⟨(List.range' 1 (pyImages D I).toNat).reverse, ?_, ?_, ?_, ?_, ?_, ?_, ?_, ?_⟩
  · intro fuel hfuel
    unfold captureLoopResult
    rw [captureState_final h0 hI hfuel]
    have hguard : capGuard (pyImages D I)
        (⟨(pyImages D I).toNat * I.toNat + 1, (pyImages D I).toNat + 1,
          (List.range ((pyImages D I).toNat + 1)).reverse⟩ : LoopState) = false := by
      simp only [capGuard, decide_eq_false_iff_not, not_le]
      omega
    have hmem : (0 : ℕ) ∈ (List.range ((pyImages D I).toNat + 1)).reverse := by
      simp [List.mem_reverse, List.mem_range]
    simp only [hguard, Bool.false_eq_true, if_false, hmem, if_true]
    rw [range_succ_reverse_erase_zero]
  · simp [List.length_range']
  · simp only [List.nodup_reverse]
    exact List.nodup_range' 1 (pyImages D I).toNat
  · intro k
    simp only [List.mem_reverse, List.mem_range']
    constructor
    · rintro ⟨i, hi, hk⟩
      omega
    · intro hk
      exact ⟨k - 1, by omega, by omega⟩
  · simp only [List.mem_reverse, List.mem_range']
    omega
  · omega
  · exact (pyImages_floor hI hD).1
  · exact (pyImages_floor hI hD).2

/-- Witness for C1 at D = 15, I = 5 (floor(15/5) = 3 frames, capture_1..capture_3). -/
theorem captureLoop_completes_with_floor_files_witness :
    (0 : ℤ) < 5 ∧ (5 : ℤ) ≤ 15 ∧
    captureLoopResult 15 5 16 = some [3, 2, 1] ∧
    (∃ l : List ℕ,
      (∀ fuel, (pyImages 15 5).toNat * (5 : ℤ).toNat + 1 ≤ fuel →
        captureLoopResult 15 5 fuel = some l) ∧
      l.length = (pyImages 15 5).toNat ∧
      l.Nodup ∧
      (∀ k, k ∈ l ↔ 1 ≤ k ∧ k ≤ (pyImages 15 5).toNat) ∧
      0 ∉ l ∧
      1 ≤ (pyImages 15 5).toNat ∧
      pyImages 15 5 * 5 ≤ 15 ∧ (15 : ℤ) < (pyImages 15 5 + 1) * 5) :=
  ⟨by decide, by decide, by decide,
    captureLoop_completes_with_floor_files 15 5 (by decide) (by decide)⟩

/-! ### Loop invariants (used for the scheduling claim) -/

theorem range_reverse_cons (j : ℕ) :
    (List.range (j + 1)).reverse = j :: (List.range j).reverse := by
  rw [List.range_succ, List.reverse_append]
  rfl

theorem capStep_count (pt : List ℤ) (s : LoopState) :
    (capStep pt s).count = s.count + 1 := by
  unfold capStep
  split <;> rfl

/-- Invariant of the while loop for a positive interval i: the files on disk are
exactly the frames below img_num, the tick counter never runs past the next
scheduled point img_num * i, every written frame was written strictly after the
previous scheduled point, and img_num never exceeds images + 1. -/
def capInv (m i : ℕ) (s : LoopState) : Prop :=
  s.files = (List.range s.imgNum).reverse ∧
  s.count ≤ s.imgNum * i ∧
  (1 ≤ s.imgNum → (s.imgNum - 1) * i < s.count) ∧
  s.imgNum ≤ m + 1

theorem capInv_init (m i : ℕ) : capInv m i initState := by
  refine ⟨rfl, by simp [initState], ?_, by simp [initState]⟩
  intro h
  simp [initState] at h

theorem capInv_step (D I : ℤ) (h0 : 0 ≤ pyImages D I) (hI : 0 < I) (s : LoopState)
    (h : capInv (pyImages D I).toNat I.toNat s) :
    capInv (pyImages D I).toNat I.toNat
      (if capGuard (pyImages D I) s then capStep (picTime D I) s else s) := by
  obtain ⟨hfiles, hle, hgt, hbound⟩ := h
  by_cases hg : capGuard (pyImages D I) s = true
  · have hsched : s.imgNum ≤ (pyImages D I).toNat := by
      simp only [capGuard, decide_eq_true_eq] at hg
      omega
    have hIc : ((I.toNat : ℕ) : ℤ) = I := Int.toNat_of_nonneg (le_of_lt hI)
    have hgetD : (picTime D I).getD s.imgNum 0 = (s.imgNum : ℤ) * I :=
      picTime_getD h0 hsched
    rw [hg, if_pos rfl]
    unfold capStep
    have hi1 : 1 ≤ I.toNat := by omega
    by_cases hw : ((s.count : ℕ) : ℤ) = (picTime D I).getD s.imgNum 0
    · have hcount : s.count = s.imgNum * I.toNat := by
        rw [hgetD] at hw
        have h2 : ((s.count : ℕ) : ℤ) = ((s.imgNum * I.toNat : ℕ) : ℤ) := by
          push_cast
          rw [hIc]
          exact hw
        exact_mod_cast h2
      rw [if_pos hw]
      have hmul : (s.imgNum + 1) * I.toNat = s.imgNum * I.toNat + I.toNat :=
        Nat.succ_mul s.imgNum I.toNat
      refine ⟨?_, ?_, ?_, ?_⟩
      · dsimp only
        rw [range_reverse_cons, hfiles]
      · dsimp only
        omega
      · dsimp only
        intro h1
        simp only [Nat.add_sub_cancel]
        omega
      · dsimp only
        omega
    · have hcount : s.count ≠ s.imgNum * I.toNat := by
        intro hc
        apply hw
        rw [hgetD, ← hIc]
        exact_mod_cast hc
      rw [if_neg hw]
      refine ⟨?_, ?_, ?_, ?_⟩
      · dsimp only
        exact hfiles
      · dsimp only
        omega
      · dsimp only
        intro h1
        have := hgt h1
        omega
      · dsimp only
        exact hbound
  · simp only [Bool.not_eq_true] at hg
    rw [hg]
    simp only [Bool.false_eq_true, if_false]
    exact ⟨hfiles, hle, hgt, hbound⟩

theorem captureState_inv (D I : ℤ) (h0 : 0 ≤ pyImages D I) (hI : 0 < I) (n : ℕ) :
    capInv (pyImages D I).toNat I.toNat (captureState D I n) := by
  induction n with
  | zero => exact capInv_init _ _
  | succ k ih =>
    unfold captureState at ih ⊢
    rw [capRun_succ]
    exact capInv_step D I h0 hI _ ih

theorem captureState_count_le (D I : ℤ) (n : ℕ) :
    (captureState D I n).count ≤ n := by
  induction n with
  | zero => simp [captureState, capRun, initState]
  | succ k ih =>
    unfold captureState at ih ⊢
    rw [capRun_succ]
    split
    · rw [capStep_count]
      omega
    · omega

/-- A frame k on disk after n ticks was written strictly after tick k * i. -/
theorem captureState_write_time (D I : ℤ) (h0 : 0 ≤ pyImages D I) (hI : 0 < I)
    {n k : ℕ} (hk : k ∈ (captureState D I n).files) : k * I.toNat + 1 ≤ n := by
  obtain ⟨hfiles, hle, hgt, hbound⟩ := captureState_inv D I h0 hI n
  rw [hfiles, List.mem_reverse, List.mem_range] at hk
  have h1 := hgt (by omega)
  have hmono : k * I.toNat ≤ ((captureState D I n).imgNum - 1) * I.toNat :=
    Nat.mul_le_mul_right _ (by omega)
  have hcn := captureState_count_le D I n
  omega

/-- C4: for positive interval I and duration D the scheduled snapshot times are
exactly the strictly increasing multiples 0, I, ..., floor(D/I) * I, which is
floor(D/I) + 1 points including time zero, and snapshot k enters the directory
exactly during the tick whose elapsed count is k * I: it is present after
k * I + 1 iterations, absent after k * I iterations, and any state containing it
lies strictly beyond tick k * I. -/
theorem captureLoop_schedule_monotone (D I : ℤ) (hI : 0 < I) (hD : 0 < D) :
    (picTime D I).length = (pyImages D I).toNat + 1 ∧
    List.Pairwise (· < ·) (picTime D I) ∧
    (∀ j, j ≤ (pyImages D I).toNat → (picTime D I).getD j 0 = (j : ℤ) * I) ∧
    (∀ n k, k ∈ (captureState D I n).files →
      k * I.toNat + 1 ≤ n ∧
      k ∉ (captureState D I (k * I.toNat)).files ∧
      k ∈ (captureState D I (k * I.toNat + 1)).files) := by
  have h0 : 0 ≤ pyImages D I := pyImages_nonneg (le_of_lt hD) (le_of_lt hI)
  refine ⟨picTime_length h0, ?_, fun j hj => picTime_getD h0 hj, ?_⟩
  · unfold picTime
    rw [List.pairwise_map]
    refine (List.pairwise_lt_range _).imp ?_
    intro a b hab
    exact mul_lt_mul_of_pos_right (by exact_mod_cast hab) hI
  · intro n k hk
    have ht := captureState_write_time D I h0 hI hk
    refine ⟨ht, ?_, ?_⟩
    · intro hmem
      have := captureState_write_time D I h0 hI hmem
      omega
    · obtain ⟨hfiles, _, _, hbound⟩ := captureState_inv D I h0 hI n
      rw [hfiles, List.mem_reverse, List.mem_range] at hk
      have hkm : k ≤ (pyImages D I).toNat := by omega
      rw [captureState_past_sched h0 hI hkm, List.mem_reverse, List.mem_range]
      omega

/-- Witness for C4 at D = 15, I = 5: four scheduled points 0, 5, 10, 15, and the
frame membership facts instantiated at n = 16, k = 2. -/
theorem captureLoop_schedule_monotone_witness :
    (0 : ℤ) < 5 ∧ (0 : ℤ) < 15 ∧
    picTime 15 5 = [0, 5, 10, 15] ∧
    (2 : ℕ) ∈ (captureState 15 5 16).files ∧
    ((picTime 15 5).length = (pyImages 15 5).toNat + 1 ∧
     List.Pairwise (· < ·) (picTime 15 5) ∧
     (∀ j, j ≤ (pyImages 15 5).toNat → (picTime 15 5).getD j 0 = (j : ℤ) * 5) ∧
     (∀ n k, k ∈ (captureState 15 5 n).files →
        k * (5 : ℤ).toNat + 1 ≤ n ∧
        k ∉ (captureState 15 5 (k * (5 : ℤ).toNat)).files ∧
        k ∈ (captureState 15 5 (k * (5 : ℤ).toNat + 1)).files)) :=
  ⟨by decide, by decide, by decide, by decide,
    captureLoop_schedule_monotone 15 5 (by decide) (by decide)⟩

/-! ## img2video (rockerCam.py lines 181-214) -/

/-- File extension as far as img2video cares: the scan keeps exactly the files
whose name ends with ".png"; the video it writes ends with ".mp4". -/
inductive FileExt
  | png
  | mp4
  | other
  deriving DecidableEq

/-- A decoded image: frame.shape = (height, width, channels). -/
structure Frame where
  width : ℕ
  height : ℕ
  channels : ℕ
  deriving DecidableEq

/-- One directory entry of a camera subdirectory. -/
structure DirFile where
  name : String
  ext : FileExt
  mtime : ℕ
  frame : Frame
  deriving DecidableEq

/-- Failure modes of the assembler.  indexError is the unhandled Python
IndexError raised by images[0] on an empty list; emptyFrameSet is the named
error the spec demands for that case, included so the spec's requirement is
statable (the code never raises it). -/
inductive PyError
  | indexError
  | emptyFrameSet
  deriving DecidableEq

/-- The produced timelapse artifact: frame rate, dimensions taken from the
first sorted frame, and number of frames written. -/
structure Video where
  fps : ℤ
  width : ℕ
  height : ℕ
  frameCount : ℕ
  deriving DecidableEq

/-- Stable insertion by mtime (images.sort(key=lambda x: os.path.getmtime(x))
is a stable sort keyed on modification time). -/
def insertByMtime (f : DirFile) : List DirFile → List DirFile
  | [] => [f]
  | g :: gs => if f.mtime ≤ g.mtime then f :: g :: gs else g :: insertByMtime f gs

/-- Stable sort by mtime, inserting from the right so equal keys keep their
original relative order. -/
def sortByMtime : List DirFile → List DirFile
  | [] => []
  | f :: fs => insertByMtime f (sortByMtime fs)

/-- img2video on the contents of one camera subdirectory: keep the .png files,
sort them by mtime, read the first frame for the output dimensions (IndexError
on an empty list), then write every frame at the requested rate. -/
def img2videoRun (files : List DirFile) (fps : ℤ) : Except PyError Video :=
  match sortByMtime (files.filter (fun f => f.ext == FileExt.png)) with
  | [] => Except.error PyError.indexError
  | first :: rest =>
      Except.ok ⟨fps, first.frame.width, first.frame.height, (first :: rest).length⟩

/-- The file the assembler writes: camera + "_video.mp4", an .mp4, not a .png. -/
def videoOutputFile (camera : String) (mt : ℕ) : DirFile :=
  ⟨camera ++ "_video.mp4", FileExt.mp4, mt, ⟨0, 0, 0⟩⟩

/-- The camera directory a completed worker leaves behind: one png file
capture_<k>.png per remaining capture number (mt, fr give each file's
modification time and decoded frame). -/
def captureFiles (caps : List ℕ) (mt : ℕ → ℕ) (fr : ℕ → Frame) : List DirFile :=
  caps.map (fun k => ⟨"capture_" ++ toString k ++ ".png", FileExt.png, mt k, fr k⟩)

theorem img2videoRun_ignores_non_png (files : List DirFile) (fps : ℤ)
    (extra : DirFile) (hextra : extra.ext ≠ FileExt.png) :
    img2videoRun (files ++ [extra]) fps = img2videoRun files fps := by
  unfold img2videoRun
  rw [List.filter_append]
  have hbeq : (extra.ext == FileExt.png) = false := by
    simp [hextra]
  have hdrop : List.filter (fun f => f.ext == FileExt.png) [extra] = [] := by
    simp [List.filter, hbeq]
  rw [hdrop, List.append_nil]

/-- C3 (code layer): invoked on a directory with no .png files, img2video
crashes with the unhandled IndexError from images[0]; and no run of img2video
ever signals the named EmptyFrameSet error - every run either raises
IndexError or returns a video. -/
theorem img2video_empty_is_index_error :
    img2videoRun [] 60 = Except.error PyError.indexError ∧
    (∀ files fps, img2videoRun files fps = Except.error PyError.indexError ∨
      ∃ v, img2videoRun files fps = Except.ok v) := by
  refine ⟨rfl, ?_⟩
  intro files fps
  unfold img2videoRun
  rcases hs : sortByMtime (files.filter (fun f => f.ext == FileExt.png)) with _ | ⟨a, l⟩
  · left
    rfl
  · right
    exact ⟨_, rfl⟩

/-- C7: timelapse assembly is idempotent on an unchanged frame set: running
img2video again after a first run added camera_video.mp4 to the directory (the
only change a run makes, and not a .png) produces a video with the same frame
count and the same dimensions. -/
theorem img2video_idempotent (files : List DirFile) (camera : String) (fps : ℤ)
    (mt : ℕ) (v : Video) (h : img2videoRun files fps = Except.ok v) :
    ∃ v₂, img2videoRun (files ++ [videoOutputFile camera mt]) fps = Except.ok v₂ ∧
      v₂.frameCount = v.frameCount ∧ v₂.width = v.width ∧ v₂.height = v.height := by
  refine ⟨v, ?_, rfl, rfl, rfl⟩
  rw [img2videoRun_ignores_non_png files fps (videoOutputFile camera mt) (by simp [videoOutputFile])]
  exact h

/-- Witness for C7 on a two-frame directory. -/
theorem img2video_idempotent_witness :
    img2videoRun
      [⟨"capture_1.png", FileExt.png, 10, ⟨640, 480, 3⟩⟩,
       ⟨"capture_2.png", FileExt.png, 20, ⟨640, 480, 3⟩⟩] 60 =
      Except.ok ⟨60, 640, 480, 2⟩ ∧
    (∃ v₂, img2videoRun
        ([⟨"capture_1.png", FileExt.png, 10, ⟨640, 480, 3⟩⟩,
          ⟨"capture_2.png", FileExt.png, 20, ⟨640, 480, 3⟩⟩] ++
          [videoOutputFile "camera_1" 30]) 60 = Except.ok v₂ ∧
      v₂.frameCount = Video.frameCount ⟨60, 640, 480, 2⟩ ∧
      v₂.width = Video.width ⟨60, 640, 480, 2⟩ ∧
      v₂.height = Video.height ⟨60, 640, 480, 2⟩) :=
  ⟨rfl, img2video_idempotent _ "camera_1" 60 30 _ rfl⟩

/-- C9: with 0 < D < I the worker writes exactly one file, capture_0.png at
time zero, the post-loop delete removes it, and the completed run leaves zero
frame files; timelapse assembly on the resulting empty directory then hits the
empty-image-list IndexError. -/
theorem captureLoop_interval_exceeds_duration (D I : ℤ) (hD : 0 < D) (hDI : D < I) :
    (captureState D I 1).files = [0] ∧
    (∀ fuel, 1 ≤ fuel → captureLoopResult D I fuel = some []) ∧
    (∀ mt fr fps, img2videoRun (captureFiles [] mt fr) fps =
      Except.error PyError.indexError) := by
  have hI : 0 < I := lt_trans hD hDI
  have h0 : 0 ≤ pyImages D I := pyImages_nonneg (le_of_lt hD) (le_of_lt hI)
  have hm0 : pyImages D I = 0 := by
    rw [pyImages_eq_ediv (le_of_lt hD) (le_of_lt hI)]
    exact Int.ediv_eq_zero_of_lt (le_of_lt hD) hDI
  have hm0' : (pyImages D I).toNat = 0 := by rw [hm0]; rfl
  refine ⟨?_, ?_, ?_⟩
  · have h := @captureState_past_sched D I h0 hI 0 (by omega)
    simp only [Nat.zero_mul, Nat.zero_add] at h
    rw [h]
    rfl
  · intro fuel hfuel
    have hfin := @captureState_final D I h0 hI fuel (by rw [hm0']; simpa using hfuel)
    rw [hm0'] at hfin
    simp only [Nat.zero_mul, Nat.zero_add] at hfin
    unfold captureLoopResult
    rw [hfin]
    have hguard : capGuard (pyImages D I) ⟨1, 1, [0]⟩ = false := by
      simp [capGuard, hm0]
    simp [hguard, List.range_succ]
  · intro mt fr fps
    rfl

/-- Witness for C9 at D = 5, I = 7. -/
theorem captureLoop_interval_exceeds_duration_witness :
    (0 : ℤ) < 5 ∧ (5 : ℤ) < 7 ∧
    ((captureState 5 7 1).files = [0] ∧
     (∀ fuel, 1 ≤ fuel → captureLoopResult 5 7 fuel = some []) ∧
     (∀ mt fr fps, img2videoRun (captureFiles [] mt fr) fps =
        Except.error PyError.indexError)) :=
  ⟨by decide, by decide,
    captureLoop_interval_exceeds_duration 5 7 (by decide) (by decide)⟩

/-! ## Working-directory side effect of img2video (lines 183-184 and 212) -/

/-- One path component applied to a cwd modelled as a stack of components:
".." moves up one level, anything else descends into that entry. -/
def chdirStep (cwd : List String) (component : String) : List String :=
  if component = ".." then cwd.dropLast else cwd ++ [component]

/-- os.chdir with a relative path: apply the path's components in order. -/
def chdir (cwd : List String) (path : List String) : List String :=
  path.foldl chdirStep cwd

/-- The cwd pair (during the scan, after return) of one img2video call:
os.chdir(os.path.join(directory, camera)) on entry and os.chdir of the
fixed relative path dot-dot slash dot-dot on exit. -/
def img2videoCwd (cwd : List String) (directory : List String) (camera : String) :
    List String × List String :=
  let during := chdir cwd (directory ++ [camera])
  (during, chdir during ["..", ".."])

theorem chdirStep_up (l : List String) : chdirStep l ".." = l.dropLast :=
  if_pos rfl

theorem chdirStep_down (l : List String) {s : String} (h : s ≠ "..") :
    chdirStep l s = l ++ [s] :=
  if_neg h

/-- C6 counterexample: starting from cwd home with directory argument
runs/day1, img2video returns with the process in home/runs, not in the
original home - ascending two levels does not undo descending three. -/
theorem img2video_cwd_counterexample :
    (img2videoCwd ["home"] ["runs", "day1"] "camera_1").1 =
      ["home", "runs", "day1", "camera_1"] ∧
    (img2videoCwd ["home"] ["runs", "day1"] "camera_1").2 = ["home", "runs"] ∧
    (img2videoCwd ["home"] ["runs", "day1"] "camera_1").2 ≠ ["home"] := by
  refine ⟨rfl, rfl, ?_⟩
  decide

/-- C6 amended: img2video changes the cwd to the camera subdirectory for the
duration of the scan, and its fixed two-level ascent on return restores the
original cwd exactly when the directory argument is a single path component;
with a multi-component directory the original cwd is not restored. -/
theorem img2video_cwd_single_component (cwd : List String) (d camera : String)
    (hd : d ≠ "..") (hc : camera ≠ "..") :
    (img2videoCwd cwd [d] camera).1 = cwd ++ [d, camera] ∧
    (img2videoCwd cwd [d] camera).2 = cwd := by
  have hduring : chdir cwd ([d] ++ [camera]) = (cwd ++ [d]) ++ [camera] := by
    simp only [chdir, List.cons_append, List.nil_append, List.foldl_cons,
      List.foldl_nil, chdirStep_down _ hd, chdirStep_down _ hc]
  have hback : chdir ((cwd ++ [d]) ++ [camera]) ["..", ".."] = cwd := by
    simp only [chdir, List.foldl_cons, List.foldl_nil, chdirStep_up]
    rw [List.dropLast_concat, List.dropLast_concat]
  constructor
  · show chdir cwd ([d] ++ [camera]) = cwd ++ [d, camera]
    rw [hduring]
    simp
  · show chdir (chdir cwd ([d] ++ [camera])) ["..", ".."] = cwd
    rw [hduring, hback]

/-- Witness for the amended C6 with a one-component output directory. -/
theorem img2video_cwd_single_component_witness :
    ("outdir" : String) ≠ ".." ∧ ("camera_2" : String) ≠ ".." ∧
    ((img2videoCwd ["lab"] ["outdir"] "camera_2").1 = ["lab"] ++ ["outdir", "camera_2"] ∧
     (img2videoCwd ["lab"] ["outdir"] "camera_2").2 = ["lab"]) :=
  ⟨by decide, by decide,
    img2video_cwd_single_component ["lab"] "outdir" "camera_2" (by decide) (by decide)⟩

/-! ## main and get_args (rockerCam.py lines 29-122) -/

/-- How a run of main ends. -/
inductive Outcome
  | configError
  | userExit
  | zeroCamsError
  | nameError
  | completed
  deriving DecidableEq

/-- Externally visible effects of one run of main. -/
structure MainResult where
  treeRemoved : Bool
  dirsCreated : ℕ
  loggerBound : Bool
  workersSpawned : ℕ
  picturesTaken : Bool
  videosBuilt : ℕ
  outcome : Outcome
  deriving DecidableEq

/-- Control flow of main, in source order: get_args raises on duration 0 or
interval 0 (line 69) before the overwrite prompt (lines 72-74, rmtree on
confirm, exit on decline); main then binds the global logger only when debug
is set (lines 94-101), enumerates cameras (line 104) and raises on zero
(lines 105-106), creates the root directory plus one per camera (lines
109-111), and immediately calls logger.debug unconditionally (line 112),
which raises NameError when the logger was never bound; only then do the
workers run and, in videoMode, the per-camera timelapses. -/
def mainRun (duration interval : ℤ) (debug videoMode dirExists userConfirms : Bool)
    (numCams : ℕ) : MainResult :=
  if duration = 0 ∨ interval = 0 then
    ⟨false, 0, false, 0, false, 0, Outcome.configError⟩
  else if dirExists && !userConfirms then
    ⟨false, 0, false, 0, false, 0, Outcome.userExit⟩
  else if numCams = 0 then
    ⟨dirExists, 0, debug, 0, false, 0, Outcome.zeroCamsError⟩
  else if !debug then
    ⟨dirExists, 1 + numCams, debug, 0, false, 0, Outcome.nameError⟩
  else
    ⟨dirExists, 1 + numCams, debug, numCams, true,
      if videoMode then numCams else 0, Outcome.completed⟩

/-- C5: duration 0 or interval 0 is rejected inside get_args before the
overwrite prompt, before device discovery, and before any mkdir: the run ends
with the configuration error, nothing is removed, no directory is created, and
no worker runs - the filesystem is unchanged. -/
theorem main_zero_config_rejected (duration interval : ℤ)
    (debug videoMode dirExists userConfirms : Bool) (numCams : ℕ)
    (h : duration = 0 ∨ interval = 0) :
    mainRun duration interval debug videoMode dirExists userConfirms numCams =
      ⟨false, 0, false, 0, false, 0, Outcome.configError⟩ := by
  unfold mainRun
  rw [if_pos h]

/-- Witness for C5 at duration 0, interval 5. -/
theorem main_zero_config_rejected_witness :
    ((0 : ℤ) = 0 ∨ (5 : ℤ) = 0) ∧
    mainRun 0 5 false false true true 2 =
      ⟨false, 0, false, 0, false, 0, Outcome.configError⟩ :=
  ⟨Or.inl rfl, main_zero_config_rejected 0 5 false false true true 2 (Or.inl rfl)⟩

/-- C8: when device discovery finds zero cameras (and the configuration was
valid and any overwrite prompt confirmed), the run aborts with the hard
zero-cameras failure before any output directory or camera subdirectory is
created and before any worker is spawned. -/
theorem main_zero_cameras_aborts (duration interval : ℤ)
    (debug videoMode dirExists userConfirms : Bool)
    (hdur : duration ≠ 0) (hint : interval ≠ 0)
    (hdir : dirExists = false ∨ userConfirms = true) :
    mainRun duration interval debug videoMode dirExists userConfirms 0 =
      ⟨dirExists, 0, debug, 0, false, 0, Outcome.zeroCamsError⟩ := by
  have h1 : ¬ (duration = 0 ∨ interval = 0) := by tauto
  have h2 : ¬ (dirExists && !userConfirms) = true := by
    rcases hdir with h | h <;> simp [h]
  unfold mainRun
  rw [if_neg h1, if_neg h2, if_pos rfl]

/-- Witness for C8 at duration 15, interval 5, zero cameras. -/
theorem main_zero_cameras_aborts_witness :
    (15 : ℤ) ≠ 0 ∧ (5 : ℤ) ≠ 0 ∧
    mainRun 15 5 false false false false 0 =
      ⟨false, 0, false, 0, false, 0, Outcome.zeroCamsError⟩ :=
  ⟨by decide, by decide,
    main_zero_cameras_aborts 15 5 false false false false
      (by decide) (by decide) (Or.inl rfl)⟩

/-- C2: without the debug flag the global logger is never bound, so the first
unconditional logger.debug in main - reached right after the root directory
and the per-camera subdirectories are created - raises NameError: the run
creates 1 + numCams directories but spawns no worker, takes no picture, and
builds no video. -/
theorem main_nondebug_name_error (duration interval : ℤ)
    (videoMode dirExists userConfirms : Bool) (numCams : ℕ)
    (hdur : duration ≠ 0) (hint : interval ≠ 0)
    (hdir : dirExists = false ∨ userConfirms = true)
    (hcams : 1 ≤ numCams) :
    mainRun duration interval false videoMode dirExists userConfirms numCams =
      ⟨dirExists, 1 + numCams, false, 0, false, 0, Outcome.nameError⟩ := by
  have h1 : ¬ (duration = 0 ∨ interval = 0) := by tauto
  have h2 : ¬ (dirExists && !userConfirms) = true := by
    rcases hdir with h | h <;> simp [h]
  unfold mainRun
  rw [if_neg h1, if_neg h2, if_neg (by omega)]
  rfl

/-- Witness for C2 at duration 15, interval 5, two cameras, no debug. -/
theorem main_nondebug_name_error_witness :
    (15 : ℤ) ≠ 0 ∧ (5 : ℤ) ≠ 0 ∧ 1 ≤ 2 ∧
    mainRun 15 5 false true false false 2 =
      ⟨false, 3, false, 0, false, 0, Outcome.nameError⟩ :=
  ⟨by decide, by decide, by decide,
    main_nondebug_name_error 15 5 true false false 2
      (by decide) (by decide) (Or.inl rfl) (by decide)⟩

/-! ## Negative duration and interval (claim C10) -/

/-- C10 counterexample: with duration -3 and interval -5 - both negative and
accepted by the zero-only configuration check - int(D/I) truncates 0.6 to 0,
the loop writes capture_0.png at tick zero, exits at once (the guard is already
false after two iterations), and the run completes with an empty directory: so
it is not the case that captureLoop never terminates whenever both values are
negative. -/
theorem captureLoop_negative_terminates_counterexample :
    ((-3 : ℤ) < 0 ∧ (-5 : ℤ) < 0) ∧
    ¬ ((-3 : ℤ) = 0 ∨ (-5 : ℤ) = 0) ∧
    pyImages (-3) (-5) = 0 ∧
    capGuard (pyImages (-3) (-5)) (captureState (-3) (-5) 2) = false ∧
    captureLoopResult (-3) (-5) 2 = some [] := by
  decide

/-- C10 amended: the configuration check in get_args rejects only exact zero
values, so negative duration and interval are accepted (the run proceeds past
the configuration check, here all the way to the non-debug NameError); and when
both are negative with duration at most interval - so that int(D/I) is at least
1 - captureLoop never terminates: frame 0 is written at tick zero and from then
on the state is stuck at img_num 1 with only the counter growing, because the
next scheduled time, interval itself, is negative and never matched, so the
loop guard holds after every number of iterations. -/
theorem captureLoop_negative_nonterminating (D I : ℤ) (hI : I < 0) (hDI : D ≤ I) :
    mainRun D I false false false false 1 =
      ⟨false, 2, false, 0, false, 0, Outcome.nameError⟩ ∧
    1 ≤ pyImages D I ∧
    (∀ n, 1 ≤ n → captureState D I n = ⟨n, 1, [0]⟩) ∧
    (∀ n, capGuard (pyImages D I) (captureState D I n) = true) := by
  have him : 1 ≤ pyImages D I := by
    have h2 : pyImages D I = Int.tdiv (-D) (-I) := (Int.neg_tdiv_neg D I).symm
    have h3 : Int.tdiv (-D) (-I) = (-D) / (-I) :=
      Int.tdiv_eq_ediv (by omega) (by omega)
    have h4 : 1 ≤ (-D) / (-I) := (Int.le_ediv_iff_mul_le (by omega)).mpr (by omega)
    omega
  have h0 : 0 ≤ pyImages D I := by omega
  have htoN : 1 ≤ (pyImages D I).toNat := by omega
  have hmain : mainRun D I false false false false 1 =
      ⟨false, 2, false, 0, false, 0, Outcome.nameError⟩ := by
    have h1 : ¬ (D = 0 ∨ I = 0) := by omega
    unfold mainRun
    rw [if_neg h1]
    rfl
  have hstate : ∀ n, 1 ≤ n → captureState D I n = ⟨n, 1, [0]⟩ := by
    intro n hn
    induction n with
    | zero => omega
    | succ k ih =>
      rcases Nat.eq_zero_or_pos k with hk | hk
      · subst hk
        unfold captureState
        rw [capRun_succ]
        have hg : capGuard (pyImages D I)
            (capRun (pyImages D I) (picTime D I) 0 initState) = true := by
          simp only [capRun, capGuard, initState, decide_eq_true_eq]
          omega
        rw [if_pos hg]
        show capStep (picTime D I) initState = ⟨1, 1, [0]⟩
        have hgetD : (picTime D I).getD 0 0 = 0 := by
          rw [picTime_getD h0 (by omega)]
          simp
        have hcond : ((initState.count : ℕ) : ℤ) =
            (picTime D I).getD initState.imgNum 0 := by
          show ((0 : ℕ) : ℤ) = (picTime D I).getD 0 0
          rw [hgetD]
          rfl
        unfold capStep
        rw [if_pos hcond]
        rfl
      · have hks := ih hk
        unfold captureState at hks ⊢
        rw [capRun_succ, hks]
        have hg : capGuard (pyImages D I) (⟨k, 1, [0]⟩ : LoopState) = true := by
          simp only [capGuard, decide_eq_true_eq]
          omega
        rw [if_pos hg]
        unfold capStep
        have hne : ((k : ℕ) : ℤ) ≠ (picTime D I).getD 1 0 := by
          rw [picTime_getD h0 htoN]
          simp only [Nat.cast_one, one_mul]
          omega
        rw [if_neg hne]
  refine ⟨hmain, him, hstate, ?_⟩
  intro n
  rcases Nat.eq_zero_or_pos n with hn | hn
  · subst hn
    simp only [captureState, capRun, capGuard, initState, decide_eq_true_eq]
    omega
  · rw [hstate n hn]
    simp only [capGuard, decide_eq_true_eq]
    omega

/-- Witness for the amended C10 at D = -15, I = -5: images = 3, the loop is
still running (img_num stuck at 1) after any number of ticks. -/
theorem captureLoop_negative_nonterminating_witness :
    (-5 : ℤ) < 0 ∧ (-15 : ℤ) ≤ -5 ∧
    (mainRun (-15) (-5) false false false false 1 =
      ⟨false, 2, false, 0, false, 0, Outcome.nameError⟩ ∧
     1 ≤ pyImages (-15) (-5) ∧
     (∀ n, 1 ≤ n → captureState (-15) (-5) n = ⟨n, 1, [0]⟩) ∧
     (∀ n, capGuard (pyImages (-15) (-5)) (captureState (-15) (-5) n) = true)) :=
  ⟨by decide, by decide,
    captureLoop_negative_nonterminating (-15) (-5) (by decide) (by decide)⟩

end RockerCam
